import Mathlib

set_option maxHeartbeats 1000000

namespace Angr

-- Shallow embedding of surveyor.py. Paths are opaque values of a type
-- variable; the scheduler observes a path only through the hook functions
-- it is passed: a step function (Surveyor.tick_path, by default delegating
-- to the external Path.continue_path), an error-record observation
-- (the errored attribute of a path, read after its step), a per-path
-- admission filter (Surveyor.trim_path) and a done predicate.

-- The environment collaborator (the angr Project): the scheduler uses it
-- only for its canonical default entry point, project.initial_exit().
structure Project (ε : Type) where
  initial_exit : ε

-- Scheduler state of the Surveyor class: the four path sets, the
-- concurrency limit (self.max_concurrency) and the round counter
-- (self.current_tick).
structure Surveyor (α : Type) where
  max_concurrency : Nat
  active : List α
  deadended : List α
  trimmed : List α
  errored : List α
  current_tick : Nat
  deriving Repr, DecidableEq

variable {α ε φ : Type}

-- Surveyor.analyze_exit: wrap a start unit in a path and append it to
-- active. mk models e mapsto Path(project=self.project, entry=e).
def analyze_exit (mk : ε → α) (s : Surveyor α) (e : ε) : Surveyor α :=
  { s with active := s.active ++ [mk e] }

-- Surveyor.init: concurrency limit defaults to 10 when None; seed from
-- the single start if given, then from the sequence of starts if given,
-- and from project.initial_exit() when neither is given.
def init (mk : ε → α) (proj : Project ε) (start : Option ε)
    (starts : Option (List ε)) (mc : Option Nat) : Surveyor α :=
  let s0 : Surveyor α :=
    { max_concurrency := mc.getD 10, active := [], deadended := [],
      trimmed := [], errored := [], current_tick := 0 }
  let s1 := match start with
    | some e => analyze_exit mk s0 e
    | none => s0
  let s2 := match starts with
    | some es => es.foldl (analyze_exit mk) s1
    | none => s1
  match start, starts with
  | none, none => analyze_exit mk s2 proj.initial_exit
  | _, _ => s2

-- The body of the loop in Surveyor.tick: for each path of the round-start
-- active list, in order, obtain its successors from the step function tp;
-- append the path to errored when its error records (es p, read after the
-- step) are non-empty; append it to deadended when it produced zero
-- successors; and extend the next active list with the successors.
def tickAux (tp : α → List α) (es : α → List ε) :
    List α → List α × List α × List α → List α × List α × List α
  | [], acc => acc
  | p :: rest, (na, dd, er) =>
    let successors := tp p
    let er2 := if 0 < (es p).length then er ++ [p] else er
    let dd2 := if successors.length = 0 then dd ++ [p] else dd
    tickAux tp es rest (na ++ successors, dd2, er2)

-- Surveyor.tick: run the loop over the snapshot of active, replace active
-- with the collected successors and increment the round counter.
def tick (tp : α → List α) (es : α → List ε) (s : Surveyor α) : Surveyor α :=
  let r := tickAux tp es s.active ([], s.deadended, s.errored)
  { s with active := r.1, deadended := r.2.1, errored := r.2.2,
           current_tick := s.current_tick + 1 }

-- Surveyor.trim_path: the default per-path admission filter excludes
-- nothing.
def trim_path (_ : α) : Bool := false

-- Surveyor.trim_paths: the default bulk admission policy appends
-- paths[max_concurrency:] to trimmed and returns paths[:max_concurrency].
def trim_paths (s : Surveyor α) (paths : List α) : Surveyor α × List α :=
  ({ s with trimmed := s.trimmed ++ paths.drop s.max_concurrency },
   paths.take s.max_concurrency)

-- Surveyor.trim: drop the paths the filter f excludes (order preserved),
-- apply the bulk policy, and set active to the kept sequence.
def trim (f : α → Bool) (s : Surveyor α) : Surveyor α :=
  let new_active := s.active.filter (fun p => !f p)
  let r := trim_paths s new_active
  { r.1 with active := r.2 }

-- Surveyor.untrim: available = max_concurrency - len(active) as a Python
-- integer; when positive and trimmed is non-empty, move the first
-- available parked paths to the back of active.
def untrim (s : Surveyor α) : Surveyor α :=
  let available : Int := (s.max_concurrency : Int) - (s.active.length : Int)
  if 0 < available ∧ 0 < s.trimmed.length then
    { s with active := s.active ++ s.trimmed.take available.toNat,
             trimmed := s.trimmed.drop available.toNat }
  else s

-- Surveyor.done: the default termination predicate, len(active) == 0.
def done (s : Surveyor α) : Bool := s.active.length == 0

-- One round of Surveyor.run: tick, then trim, then untrim, in that order.
def roundFn (tp : α → List α) (es : α → List ε) (f : α → Bool)
    (s : Surveyor α) : Surveyor α :=
  untrim (trim f (tick tp es s))

-- Surveyor.run with a round budget n (the n=None mode runs the same loop
-- without the budget test). dn is the (overridable) done predicate and
-- stop is the trace of the process-wide STOP_RUNS flag as read at the
-- round boundary after the round whose counter value is its argument;
-- when the flag is set the loop breaks before decrementing n. PAUSE_RUNS
-- only hands control to a debugger and changes no scheduler state.
def run (tp : α → List α) (es : α → List ε) (f : α → Bool)
    (dn : Surveyor α → Bool) (stop : Nat → Bool) :
    Nat → Surveyor α → Surveyor α
  | 0, s => s
  | k + 1, s =>
    if dn s then s
    else
      let s2 := roundFn tp es f s
      if stop s2.current_tick then s2
      else run tp es f dn stop k s2

-- The number of rounds a call to run performs, mirroring run.
def runRounds (tp : α → List α) (es : α → List ε) (f : α → Bool)
    (dn : Surveyor α → Bool) (stop : Nat → Bool) :
    Nat → Surveyor α → Nat
  | 0, _ => 0
  | k + 1, s =>
    if dn s then 0
    else
      let s2 := roundFn tp es f s
      if stop s2.current_tick then 1
      else 1 + runRounds tp es f dn stop k s2

-- Exception-aware layer: the Python code contains no try/except, so an
-- exception raised by a hook aborts the operation at the point of the
-- call and propagates to the caller. Hooks that may raise return Except.

-- Surveyor.tick loop with a step function that may raise.
def tickAuxE (tp : α → Except φ (List α)) (es : α → List ε) :
    List α → List α × List α × List α → Except φ (List α × List α × List α)
  | [], acc => Except.ok acc
  | p :: rest, (na, dd, er) =>
    match tp p with
    | Except.error e => Except.error e
    | Except.ok successors =>
      let er2 := if 0 < (es p).length then er ++ [p] else er
      let dd2 := if successors.length = 0 then dd ++ [p] else dd
      tickAuxE tp es rest (na ++ successors, dd2, er2)

-- Surveyor.tick with a step function that may raise.
def tickE (tp : α → Except φ (List α)) (es : α → List ε) (s : Surveyor α) :
    Except φ (Surveyor α) :=
  match tickAuxE tp es s.active ([], s.deadended, s.errored) with
  | Except.error e => Except.error e
  | Except.ok r =>
    Except.ok { s with active := r.1, deadended := r.2.1, errored := r.2.2,
                       current_tick := s.current_tick + 1 }

-- The list comprehension of Surveyor.trim with a filter that may raise:
-- the filter is applied left to right and its first exception propagates.
def filterNotE (f : α → Except φ Bool) : List α → Except φ (List α)
  | [] => Except.ok []
  | p :: rest =>
    match f p with
    | Except.error e => Except.error e
    | Except.ok b =>
      match filterNotE f rest with
      | Except.error e => Except.error e
      | Except.ok l => Except.ok (if b then l else p :: l)

-- Surveyor.trim with a filter and a bulk admission policy that may raise.
def trimE (f : α → Except φ Bool)
    (policy : Surveyor α → List α → Except φ (Surveyor α × List α))
    (s : Surveyor α) : Except φ (Surveyor α) :=
  match filterNotE f s.active with
  | Except.error e => Except.error e
  | Except.ok l =>
    match policy s l with
    | Except.error e => Except.error e
    | Except.ok r => Except.ok { r.1 with active := r.2 }

-- Surveyor.run with hooks that may raise: the done predicate, the step
-- function, the filter and the policy are consulted in the order of the
-- source and their first exception propagates out of the loop.
def runE (tp : α → Except φ (List α)) (es : α → List ε)
    (f : α → Except φ Bool)
    (policy : Surveyor α → List α → Except φ (Surveyor α × List α))
    (dn : Surveyor α → Except φ Bool) (stop : Nat → Bool) :
    Nat → Surveyor α → Except φ (Surveyor α)
  | 0, s => Except.ok s
  | k + 1, s =>
    match dn s with
    | Except.error e => Except.error e
    | Except.ok true => Except.ok s
    | Except.ok false =>
      match tickE tp es s with
      | Except.error e => Except.error e
      | Except.ok s1 =>
        match trimE f policy s1 with
        | Except.error e => Except.error e
        | Except.ok s2 =>
          let s3 := untrim s2
          if stop s3.current_tick then Except.ok s3
          else runE tp es f policy dn stop k s3

-- Concrete instances used to evaluate the development on small inputs.
-- Paths are natural numbers and error records are natural numbers.

-- A step function under which path 1 yields path 0 as its successor while
-- path 0 yields no successor.
def cexTp : Nat → List Nat := fun p => if p = 1 then [0] else []

-- Error records: path 0 has accumulated exactly one error record.
def cexEs : Nat → List Nat := fun p => if p = 0 then [7] else []

-- A scheduler whose active set holds paths 0 and 1.
def cexS : Surveyor Nat :=
  { max_concurrency := 10, active := [0, 1], deadended := [], trimmed := [],
    errored := [], current_tick := 0 }

-- A step function that never yields successors, an error observation with
-- one record per path, and a scheduler with the single active path 5.
def wTp : Nat → List Nat := fun _ => []

def wEs : Nat → List Nat := fun _ => [3]

def wS : Surveyor Nat :=
  { max_concurrency := 10, active := [5], deadended := [], trimmed := [],
    errored := [], current_tick := 0 }

-- A scheduler that is already done: its active set is empty.
def wS6 : Surveyor Nat :=
  { max_concurrency := 10, active := [], deadended := [], trimmed := [],
    errored := [], current_tick := 0 }

-- A scheduler with one active path, a step function keeping it alive, and
-- no error records: the default done predicate never becomes true on it.
def w7S : Surveyor Nat :=
  { max_concurrency := 10, active := [4], deadended := [], trimmed := [],
    errored := [], current_tick := 0 }

def w7tp : Nat → List Nat := fun p => [p]

def w7es : Nat → List Nat := fun _ => []

-- A scheduler with one active path for exercising the exception layer, and
-- one whose trimmed set holds a parked path while active is already full.
def w9S : Surveyor Nat :=
  { max_concurrency := 10, active := [1], deadended := [], trimmed := [],
    errored := [], current_tick := 0 }

def w4S : Surveyor Nat :=
  { max_concurrency := 2, active := [1, 2], deadended := [], trimmed := [9],
    errored := [], current_tick := 0 }

-- Helper lemmas.

theorem tickAux_eq (tp : α → List α) (es : α → List ε) :
    ∀ (l na dd er : List α),
      tickAux tp es l (na, dd, er) =
        (na ++ l.flatMap tp,
         dd ++ l.filter (fun p => decide ((tp p).length = 0)),
         er ++ l.filter (fun p => decide (0 < (es p).length))) := by
  intro l
  induction l with
  | nil => intro na dd er; simp [tickAux]
  | cons p rest ih =>
    intro na dd er
    simp only [tickAux]
    rw [ih]
    by_cases h1 : (tp p).length = 0
    · by_cases h2 : 0 < (es p).length
      · simp [h1, h2, List.flatMap_cons, List.filter_cons, List.append_assoc]
      · simp [h1, h2, List.flatMap_cons, List.filter_cons, List.append_assoc]
    · by_cases h2 : 0 < (es p).length
      · simp [h1, h2, List.flatMap_cons, List.filter_cons, List.append_assoc]
      · simp [h1, h2, List.flatMap_cons, List.filter_cons, List.append_assoc]

theorem tick_eq (tp : α → List α) (es : α → List ε) (s : Surveyor α) :
    tick tp es s =
      { s with
        active := s.active.flatMap tp,
        deadended :=
          s.deadended ++ s.active.filter (fun p => decide ((tp p).length = 0)),
        errored :=
          s.errored ++ s.active.filter (fun p => decide (0 < (es p).length)),
        current_tick := s.current_tick + 1 } := by
  simp [tick, tickAux_eq]

theorem trim_active (f : α → Bool) (s : Surveyor α) :
    (trim f s).active =
      (s.active.filter (fun p => !f p)).take s.max_concurrency := rfl

theorem trim_trimmed (f : α → Bool) (s : Surveyor α) :
    (trim f s).trimmed =
      s.trimmed ++ (s.active.filter (fun p => !f p)).drop s.max_concurrency :=
  rfl

theorem trim_deadended (f : α → Bool) (s : Surveyor α) :
    (trim f s).deadended = s.deadended := rfl

theorem trim_errored (f : α → Bool) (s : Surveyor α) :
    (trim f s).errored = s.errored := rfl

theorem trim_tick (f : α → Bool) (s : Surveyor α) :
    (trim f s).current_tick = s.current_tick := rfl

theorem trim_mc (f : α → Bool) (s : Surveyor α) :
    (trim f s).max_concurrency = s.max_concurrency := rfl

theorem untrim_active (s : Surveyor α) :
    (untrim s).active =
      s.active ++ s.trimmed.take (s.max_concurrency - s.active.length) := by
  simp only [untrim]
  split_ifs with h
  · have ht : ((s.max_concurrency : Int) - (s.active.length : Int)).toNat =
        s.max_concurrency - s.active.length := by omega
    rw [ht]
  · rcases not_and_or.mp h with h | h
    · have h0 : s.max_concurrency - s.active.length = 0 := by omega
      simp [h0]
    · have h0 : s.trimmed = [] := List.length_eq_zero.mp (by omega)
      simp [h0]

theorem untrim_trimmed (s : Surveyor α) :
    (untrim s).trimmed =
      s.trimmed.drop (s.max_concurrency - s.active.length) := by
  simp only [untrim]
  split_ifs with h
  · have ht : ((s.max_concurrency : Int) - (s.active.length : Int)).toNat =
        s.max_concurrency - s.active.length := by omega
    rw [ht]
  · rcases not_and_or.mp h with h | h
    · have h0 : s.max_concurrency - s.active.length = 0 := by omega
      simp [h0]
    · have h0 : s.trimmed = [] := List.length_eq_zero.mp (by omega)
      simp [h0]

theorem untrim_deadended (s : Surveyor α) :
    (untrim s).deadended = s.deadended := by
  simp only [untrim]; split_ifs <;> rfl

theorem untrim_errored (s : Surveyor α) :
    (untrim s).errored = s.errored := by
  simp only [untrim]; split_ifs <;> rfl

theorem untrim_tick (s : Surveyor α) :
    (untrim s).current_tick = s.current_tick := by
  simp only [untrim]; split_ifs <;> rfl

theorem untrim_mc (s : Surveyor α) :
    (untrim s).max_concurrency = s.max_concurrency := by
  simp only [untrim]; split_ifs <;> rfl

theorem untrim_sum (s : Surveyor α) :
    (untrim s).active.length + (untrim s).trimmed.length =
      s.active.length + s.trimmed.length := by
  rw [untrim_active, untrim_trimmed]
  simp [List.length_append, List.length_take, List.length_drop]
  omega

theorem foldl_analyze_exit (mk : ε → α) :
    ∀ (es : List ε) (s : Surveyor α),
      es.foldl (analyze_exit mk) s =
        { s with active := s.active ++ es.map mk } := by
  intro es
  induction es with
  | nil => intro s; simp
  | cons e rest ih =>
    intro s
    rw [List.foldl_cons, ih]
    simp [analyze_exit]

theorem roundFn_tick (tp : α → List α) (es : α → List ε) (f : α → Bool)
    (s : Surveyor α) :
    (roundFn tp es f s).current_tick = s.current_tick + 1 := by
  rw [roundFn, untrim_tick, trim_tick]
  rfl

theorem iterate_roundFn_tick (tp : α → List α) (es : α → List ε)
    (f : α → Bool) :
    ∀ (j : Nat) (s : Surveyor α),
      ((roundFn tp es f)^[j] s).current_tick = s.current_tick + j := by
  intro j
  induction j with
  | zero => intro s; simp
  | succ j ih =>
    intro s
    rw [Function.iterate_succ_apply, ih, roundFn_tick]
    omega

theorem runRounds_le (tp : α → List α) (es : α → List ε) (f : α → Bool)
    (dn : Surveyor α → Bool) (stop : Nat → Bool) :
    ∀ (k : Nat) (s : Surveyor α), runRounds tp es f dn stop k s ≤ k := by
  intro k
  induction k with
  | zero => intro s; simp [runRounds]
  | succ k ih =>
    intro s
    simp only [runRounds]
    split_ifs with h1 h2
    · omega
    · omega
    · have := ih (roundFn tp es f s)
      omega

theorem run_eq_iterate (tp : α → List α) (es : α → List ε) (f : α → Bool)
    (dn : Surveyor α → Bool) (stop : Nat → Bool) :
    ∀ (k : Nat) (s : Surveyor α),
      run tp es f dn stop k s =
        (roundFn tp es f)^[runRounds tp es f dn stop k s] s := by
  intro k
  induction k with
  | zero => intro s; simp [run, runRounds]
  | succ k ih =>
    intro s
    simp only [run, runRounds]
    split_ifs with h1 h2
    · simp
    · simp
    · rw [ih, Nat.add_comm 1, Function.iterate_succ_apply]

theorem init_default_entry (mk : ε → α) (proj : Project ε) (mc : Option Nat) :
    init mk proj none none mc =
      { max_concurrency := mc.getD 10, active := [mk proj.initial_exit],
        deadended := [], trimmed := [], errored := [],
        current_tick := 0 } := rfl

theorem init_single_start (mk : ε → α) (proj : Project ε) (e : ε)
    (mc : Option Nat) :
    init mk proj (some e) none mc =
      { max_concurrency := mc.getD 10, active := [mk e], deadended := [],
        trimmed := [], errored := [], current_tick := 0 } := rfl

theorem init_starts_list (mk : ε → α) (proj : Project ε) (es : List ε)
    (mc : Option Nat) :
    init mk proj none (some es) mc =
      { max_concurrency := mc.getD 10, active := es.map mk, deadended := [],
        trimmed := [], errored := [], current_tick := 0 } := by
  simp only [init]
  rw [foldl_analyze_exit]
  simp

theorem tickAuxE_ok (tp : α → List α) (es : α → List ε) :
    ∀ (l : List α) (acc : List α × List α × List α),
      tickAuxE (φ := φ) (fun p => Except.ok (tp p)) es l acc =
        Except.ok (tickAux tp es l acc) := by
  intro l
  induction l with
  | nil => intro acc; rfl
  | cons p rest ih =>
    intro acc
    obtain ⟨na, dd, er⟩ := acc
    simp only [tickAuxE, tickAux]
    exact ih _

theorem tickE_ok (tp : α → List α) (es : α → List ε) (s : Surveyor α) :
    tickE (φ := φ) (fun p => Except.ok (tp p)) es s =
      Except.ok (tick tp es s) := by
  simp only [tickE, tickAuxE_ok, tick]

theorem tickAuxE_error (tp : α → Except φ (List α)) (es : α → List ε)
    (e : φ) :
    ∀ (l1 : List α) (p : α) (l2 : List α) (acc : List α × List α × List α),
      (∀ q ∈ l1, ∃ lq, tp q = Except.ok lq) → tp p = Except.error e →
      tickAuxE tp es (l1 ++ p :: l2) acc = Except.error e := by
  intro l1
  induction l1 with
  | nil =>
    intro p l2 acc hok hp
    obtain ⟨na, dd, er⟩ := acc
    simp only [List.nil_append, tickAuxE, hp]
  | cons q rest ih =>
    intro p l2 acc hok hp
    obtain ⟨na, dd, er⟩ := acc
    obtain ⟨lq, hq⟩ := hok q (by simp)
    simp only [List.cons_append, tickAuxE, hq]
    exact ih p l2 _ (fun r hr => hok r (by simp [hr])) hp

theorem tickE_error (tp : α → Except φ (List α)) (es : α → List ε)
    (s : Surveyor α) (l1 : List α) (p : α) (l2 : List α) (e : φ)
    (hsplit : s.active = l1 ++ p :: l2)
    (hok : ∀ q ∈ l1, ∃ lq, tp q = Except.ok lq)
    (hp : tp p = Except.error e) :
    tickE tp es s = Except.error e := by
  simp only [tickE, hsplit, tickAuxE_error tp es e l1 p l2 _ hok hp]

theorem filterNotE_ok (f : α → Bool) :
    ∀ l : List α,
      filterNotE (φ := φ) (fun p => Except.ok (f p)) l =
        Except.ok (l.filter (fun p => !f p)) := by
  intro l
  induction l with
  | nil => rfl
  | cons p rest ih =>
    simp only [filterNotE, ih, List.filter_cons]
    by_cases h : f p
    · simp [h]
    · simp [h]

theorem trimE_ok (f : α → Bool) (s : Surveyor α) :
    trimE (φ := φ) (fun p => Except.ok (f p))
        (fun s2 l => Except.ok (trim_paths s2 l)) s =
      Except.ok (trim f s) := by
  simp only [trimE, filterNotE_ok, trim]

theorem filterNotE_error (f : α → Except φ Bool) (e : φ) :
    ∀ (l1 : List α) (p : α) (l2 : List α),
      (∀ q ∈ l1, ∃ b, f q = Except.ok b) → f p = Except.error e →
      filterNotE f (l1 ++ p :: l2) = Except.error e := by
  intro l1
  induction l1 with
  | nil =>
    intro p l2 hok hp
    simp only [List.nil_append, filterNotE, hp]
  | cons q rest ih =>
    intro p l2 hok hp
    obtain ⟨b, hq⟩ := hok q (by simp)
    have h2 := ih p l2 (fun r hr => hok r (by simp [hr])) hp
    rw [List.cons_append]
    simp only [filterNotE, hq, h2]

theorem trimE_filter_error (f : α → Except φ Bool)
    (policy : Surveyor α → List α → Except φ (Surveyor α × List α))
    (s : Surveyor α) (l1 : List α) (p : α) (l2 : List α) (e : φ)
    (hsplit : s.active = l1 ++ p :: l2)
    (hok : ∀ q ∈ l1, ∃ b, f q = Except.ok b)
    (hp : f p = Except.error e) :
    trimE f policy s = Except.error e := by
  simp only [trimE, hsplit, filterNotE_error f e l1 p l2 hok hp]

theorem trimE_policy_error (f : α → Bool)
    (policy : Surveyor α → List α → Except φ (Surveyor α × List α))
    (s : Surveyor α) (e : φ)
    (hp : policy s (s.active.filter (fun p => !f p)) = Except.error e) :
    trimE (fun p => Except.ok (f p)) policy s = Except.error e := by
  simp only [trimE, filterNotE_ok, hp]

theorem runE_ok (tp : α → List α) (es : α → List ε) (f : α → Bool)
    (dn : Surveyor α → Bool) (stop : Nat → Bool) :
    ∀ (k : Nat) (s : Surveyor α),
      runE (φ := φ) (fun p => Except.ok (tp p)) es
          (fun p => Except.ok (f p))
          (fun s2 l => Except.ok (trim_paths s2 l))
          (fun s2 => Except.ok (dn s2)) stop k s =
        Except.ok (run tp es f dn stop k s) := by
  intro k
  induction k with
  | zero => intro s; rfl
  | succ k ih =>
    intro s
    simp only [runE, run, tickE_ok, trimE_ok]
    by_cases h : dn s
    · simp [h]
    · simp only [h, Bool.false_eq_true, if_false]
      have hr : trim f (tick tp es s) = trim f (tick tp es s) := rfl
      by_cases hstop : stop (untrim (trim f (tick tp es s))).current_tick
      · simp [roundFn, hstop]
      · simp [roundFn, hstop, ih]

theorem runE_done_error (tp : α → Except φ (List α)) (es : α → List ε)
    (f : α → Except φ Bool)
    (policy : Surveyor α → List α → Except φ (Surveyor α × List α))
    (dn : Surveyor α → Except φ Bool) (stop : Nat → Bool) (k : Nat)
    (s : Surveyor α) (e : φ) (hd : dn s = Except.error e) (hk : 1 ≤ k) :
    runE tp es f policy dn stop k s = Except.error e := by
  cases k with
  | zero => omega
  | succ k => simp only [runE, hd]

-- Claim theorems.

/-- C1 (counterexample): the claim as frozen asserts that a path whose step
returns 0 successors and 1 error record is absent from the new active set
after tick. On the embedded code this is false: in cexS, path 0 steps to 0
successors with 1 error record, is appended to both deadended and errored,
yet reappears in the new active set because the step of path 1 yields it as
a successor. -/
theorem tick_deadended_path_reappears_in_active :
    0 ∈ cexS.active ∧ cexTp 0 = [] ∧ (cexEs 0).length = 1 ∧
    0 ∈ (tick cexTp cexEs cexS).deadended ∧
    0 ∈ (tick cexTp cexEs cexS).errored ∧
    0 ∈ (tick cexTp cexEs cexS).active := by decide

/-- C1 (amended): for every path p active at the start of tick, after the
tick p has been appended to errored iff its accumulated error records were
non-empty (independent of successor count), and appended to deadended iff
its step produced zero successors; a path whose step returns 0 successors
and 1 error record appears in both deadended and errored, and is absent
from the new active set provided no stepped active path yields it as a
successor (as in the single-path scenario of the spec). -/
theorem tick_classifies_errored_and_deadended (tp : α → List α)
    (es : α → List ε) (s : Surveyor α) (p : α)
    (hmem : p ∈ s.active) (hsucc : tp p = []) (herr : (es p).length = 1) :
    (tick tp es s).errored =
      s.errored ++ s.active.filter (fun q => decide (0 < (es q).length)) ∧
    (tick tp es s).deadended =
      s.deadended ++ s.active.filter (fun q => decide ((tp q).length = 0)) ∧
    p ∈ (tick tp es s).deadended ∧ p ∈ (tick tp es s).errored ∧
    ((∀ q ∈ s.active, p ∉ tp q) → p ∉ (tick tp es s).active) := by
  rw [tick_eq]
  refine ⟨rfl, rfl, ?_, ?_, ?_⟩
  · exact List.mem_append_right _
      (List.mem_filter.mpr ⟨hmem, by simp [hsucc]⟩)
  · exact List.mem_append_right _
      (List.mem_filter.mpr ⟨hmem, by simp [herr]⟩)
  · intro hnone hmem2
    obtain ⟨q, hq, hpq⟩ := List.mem_flatMap.mp hmem2
    exact hnone q hq hpq

/-- C1 (witness): in wS the single active path 5 steps to no successors
with one error record; after tick it is in deadended and errored and not in
the new active set. -/
theorem tick_classifies_witness :
    5 ∈ (tick wTp wEs wS).deadended ∧ 5 ∈ (tick wTp wEs wS).errored ∧
    5 ∉ (tick wTp wEs wS).active := by
  obtain ⟨h1, h2, hd, he, hn⟩ :=
    tick_classifies_errored_and_deadended wTp wEs wS 5 (by decide) rfl rfl
  exact ⟨hd, he, hn (by intro q hq; simp [wTp])⟩

/-- C2: one call to tick replaces active with the concatenation of the
successor sequences of every path active at the start of the call, taken
in the iteration order of the old active set with per-path successor order
preserved (the scheduler appends only successors, never the stepped path
itself); the round counter increases by exactly 1 per tick call and by 0
for trim and untrim; the value tick returns is the updated scheduler. -/
theorem tick_replaces_active_and_counts (tp : α → List α) (es : α → List ε)
    (f : α → Bool) (s : Surveyor α) :
    (tick tp es s).active = s.active.flatMap tp ∧
    (tick tp es s).current_tick = s.current_tick + 1 ∧
    (trim f s).current_tick = s.current_tick ∧
    (untrim s).current_tick = s.current_tick := by
  refine ⟨?_, rfl, rfl, untrim_tick s⟩
  rw [tick_eq]

/-- C3: after trim with the default hooks (the default filter excludes
nothing and the default bulk policy keeps a front-of-queue cap), active is
the first max_concurrency paths of the old active in order, the remainder
is appended in order to trimmed, and the length of active never exceeds
max_concurrency. -/
theorem trim_default_caps_active (s : Surveyor α) :
    (trim trim_path s).active = s.active.take s.max_concurrency ∧
    (trim trim_path s).trimmed =
      s.trimmed ++ s.active.drop s.max_concurrency ∧
    (trim trim_path s).active.length ≤ s.max_concurrency := by
  have hf : s.active.filter (fun p => ! trim_path p) = s.active := by
    simp [trim_path]
  refine ⟨?_, ?_, ?_⟩
  · rw [trim_active, hf]
  · rw [trim_trimmed, hf]
  · rw [trim_active, hf]
    simp [List.length_take]

/-- C4: untrim computes available = max_concurrency - len(active); when
positive and trimmed non-empty it moves exactly min(available,
len(trimmed)) paths from the front of trimmed to the back of active in
FIFO order, the remainder staying parked; it is a no-op when available is
not positive or trimmed is empty; and it never grows active beyond
max_concurrency. -/
theorem untrim_reclaims_parked (s : Surveyor α) :
    (untrim s).active =
      s.active ++ s.trimmed.take (s.max_concurrency - s.active.length) ∧
    (untrim s).trimmed =
      s.trimmed.drop (s.max_concurrency - s.active.length) ∧
    (untrim s).active.length =
      s.active.length +
        min (s.max_concurrency - s.active.length) s.trimmed.length ∧
    ((s.max_concurrency ≤ s.active.length ∨ s.trimmed = []) →
      untrim s = s) ∧
    (untrim s).active.length ≤ max s.max_concurrency s.active.length := by
  refine ⟨untrim_active s, untrim_trimmed s, ?_, ?_, ?_⟩
  · rw [untrim_active]
    simp [List.length_append, List.length_take]
  · intro h
    simp only [untrim]
    rw [if_neg]
    rintro ⟨ha, hb⟩
    rcases h with h | h
    · omega
    · rw [h] at hb
      simp at hb
  · rw [untrim_active]
    simp only [List.length_append, List.length_take]
    omega

/-- C4 (witness): on w4S, whose active set is already at its concurrency
limit, untrim is a no-op. -/
theorem untrim_reclaims_witness : untrim w4S = w4S :=
  (untrim_reclaims_parked w4S).2.2.2.1 (Or.inl (by decide))

/-- C5: construction is determined by exactly one of the three seeding
modes: with neither a single start nor a sequence of starts, exactly one
path seeded from the canonical default entry point of the environment is
created; with a single start, one path wrapping it; with a sequence of
starts, one path per start unit in order (so 3 starts give an active set
of length 3) with deadended, errored and trimmed empty and the round
counter 0; the concurrency limit defaults to 10 when unspecified. -/
theorem init_seeding_modes (mk : ε → α) (proj : Project ε)
    (mc : Option Nat) :
    init mk proj none none mc =
      { max_concurrency := mc.getD 10, active := [mk proj.initial_exit],
        deadended := [], trimmed := [], errored := [], current_tick := 0 } ∧
    (∀ e, init mk proj (some e) none mc =
      { max_concurrency := mc.getD 10, active := [mk e], deadended := [],
        trimmed := [], errored := [], current_tick := 0 }) ∧
    (∀ es, init mk proj none (some es) mc =
      { max_concurrency := mc.getD 10, active := es.map mk, deadended := [],
        trimmed := [], errored := [], current_tick := 0 } ∧
      (init mk proj none (some es) mc : Surveyor α).active.length =
        es.length) ∧
    (∀ (start : Option ε) (starts : Option (List ε)),
      (init mk proj start starts none : Surveyor α).max_concurrency = 10) := by
  refine ⟨init_default_entry mk proj mc, fun e => init_single_start mk proj e mc,
    fun es => ⟨init_starts_list mk proj es mc, ?_⟩, ?_⟩
  · rw [init_starts_list]
    simp
  · intro start starts
    cases start <;> cases starts <;>
      simp [init, analyze_exit, foldl_analyze_exit]

/-- C8: the sum of the lengths of active and trimmed after trim followed by
untrim never exceeds that sum before the pair of calls: admission control
only moves paths between the two sets or drops filter-excluded ones, never
creating any. -/
theorem admission_population_bound (f : α → Bool) (s : Surveyor α) :
    (untrim (trim f s)).active.length +
        (untrim (trim f s)).trimmed.length ≤
      s.active.length + s.trimmed.length := by
  rw [untrim_sum, trim_active, trim_trimmed]
  have hle : (s.active.filter (fun p => !f p)).length ≤ s.active.length :=
    List.length_filter_le _ _
  simp only [List.length_take, List.length_append, List.length_drop]
  omega

/-- C10: frame conditions: trim and untrim leave the deadended and errored
sequences unchanged, and tick leaves the trimmed sequence unchanged. -/
theorem operation_frames (tp : α → List α) (es : α → List ε) (f : α → Bool)
    (s : Surveyor α) :
    (trim f s).deadended = s.deadended ∧ (trim f s).errored = s.errored ∧
    (untrim s).deadended = s.deadended ∧ (untrim s).errored = s.errored ∧
    (tick tp es s).trimmed = s.trimmed :=
  ⟨rfl, rfl, untrim_deadended s, untrim_errored s, rfl⟩

/-- C6: run with round budget k performs at most k rounds, each round
being tick, then trim, then untrim, in that order (the final state is a
whole number of applications of that round, bounded by k) even if the done
predicate never becomes true; it performs zero rounds and returns the
scheduler unchanged if the done predicate already holds, in particular,
with the default done predicate, when active is empty. -/
theorem run_budget_bound (tp : α → List α) (es : α → List ε) (f : α → Bool)
    (dn : Surveyor α → Bool) (stop : Nat → Bool) (k : Nat) (s : Surveyor α) :
    runRounds tp es f dn stop k s ≤ k ∧
    run tp es f dn stop k s =
      (roundFn tp es f)^[runRounds tp es f dn stop k s] s ∧
    (dn s = true →
      run tp es f dn stop k s = s ∧ runRounds tp es f dn stop k s = 0) ∧
    (s.active = [] → run tp es f done stop k s = s) := by
  refine ⟨runRounds_le tp es f dn stop k s,
    run_eq_iterate tp es f dn stop k s, ?_, ?_⟩
  · intro hd
    cases k with
    | zero => exact ⟨rfl, rfl⟩
    | succ k => constructor <;> simp [run, runRounds, hd]
  · intro ha
    cases k with
    | zero => rfl
    | succ k => simp [run, done, ha]

/-- C6 (witness): on the already-done scheduler wS6 (empty active set), a
run with budget 3 performs no round. -/
theorem run_budget_witness :
    run (fun p => [p]) (fun (_ : Nat) => ([] : List Nat)) (fun _ => false)
      done (fun _ => false) 3 wS6 = wS6 :=
  (run_budget_bound (fun p => [p]) (fun (_ : Nat) => ([] : List Nat))
    (fun _ => false) done (fun _ => false) 3 wS6).2.2.2 rfl

/-- C7: the stop flag is consulted only at round boundaries: the state run
returns is always a whole number of rounds applied to the input state, so
a round of tick, trim, untrim completes atomically with respect to the
control flags; when the flag is observed set after the first round, run
executes no further rounds and exits with the scheduler exactly as it was
at that round boundary; the round counter of the j-th boundary is the
initial counter plus j; and a re-invocation of run on the returned
scheduler resumes from that exact boundary state, continuing the round
numbering. -/
theorem run_stop_at_round_boundaries (tp : α → List α) (es : α → List ε)
    (f : α → Bool) (dn : Surveyor α → Bool) (stop : Nat → Bool) (k : Nat)
    (s : Surveyor α) :
    run tp es f dn stop k s =
      (roundFn tp es f)^[runRounds tp es f dn stop k s] s ∧
    (∀ j, ((roundFn tp es f)^[j] s).current_tick = s.current_tick + j) ∧
    (dn s = false → stop ((roundFn tp es f s).current_tick) = true →
      1 ≤ k →
      run tp es f dn stop k s = roundFn tp es f s ∧
      runRounds tp es f dn stop k s = 1) ∧
    (∀ (stop2 : Nat → Bool) (k2 : Nat),
      run tp es f dn stop2 k2 (run tp es f dn stop k s) =
        (roundFn tp es f)^[runRounds tp es f dn stop2 k2
            (run tp es f dn stop k s) + runRounds tp es f dn stop k s] s) := by
  refine ⟨run_eq_iterate tp es f dn stop k s,
    fun j => iterate_roundFn_tick tp es f j s, ?_, ?_⟩
  · intro hdn hstop hk
    cases k with
    | zero => omega
    | succ k => constructor <;> simp [run, runRounds, hdn, hstop]
  · intro stop2 k2
    rw [run_eq_iterate tp es f dn stop k s,
      run_eq_iterate tp es f dn stop2 k2, Function.iterate_add_apply]

/-- C7 (witness): on w7S with the stop flag set at every round boundary,
run with budget 5 executes exactly the first round and exits at that
boundary. -/
theorem run_stop_witness :
    run w7tp w7es (fun _ => false) done (fun _ => true) 5 w7S =
      roundFn w7tp w7es (fun _ => false) w7S :=
  ((run_stop_at_round_boundaries w7tp w7es (fun _ => false) done
    (fun _ => true) 5 w7S).2.2.1 (by decide) rfl (by decide)).1

/-- C9: with every hook returning normally, tick, trim and run complete
normally with the same result as the fault-free embedding, path errors
surfacing only as entries appended to errored and never as a thrown fault;
conversely a fault raised by a pluggable hook propagates unmodified to the
caller: out of tick from the step function (raised at the first failing
path, all paths before it in iteration order succeeding), out of trim from
the admission filter or the bulk admission policy, and out of run from the
done predicate. -/
theorem hooks_fault_propagation :
    (∀ (tp : α → List α) (es : α → List ε) (s : Surveyor α),
      tickE (φ := φ) (fun p => Except.ok (tp p)) es s =
        Except.ok (tick tp es s) ∧
      (tick tp es s).errored =
        s.errored ++ s.active.filter (fun q => decide (0 < (es q).length))) ∧
    (∀ (tp : α → Except φ (List α)) (es : α → List ε) (s : Surveyor α)
      (l1 : List α) (p : α) (l2 : List α) (e : φ),
      s.active = l1 ++ p :: l2 →
      (∀ q ∈ l1, ∃ lq, tp q = Except.ok lq) → tp p = Except.error e →
      tickE tp es s = Except.error e) ∧
    (∀ (f : α → Bool) (s : Surveyor α),
      trimE (φ := φ) (fun p => Except.ok (f p))
          (fun s2 l => Except.ok (trim_paths s2 l)) s =
        Except.ok (trim f s)) ∧
    (∀ (f : α → Except φ Bool)
      (policy : Surveyor α → List α → Except φ (Surveyor α × List α))
      (s : Surveyor α) (l1 : List α) (p : α) (l2 : List α) (e : φ),
      s.active = l1 ++ p :: l2 → (∀ q ∈ l1, ∃ b, f q = Except.ok b) →
      f p = Except.error e → trimE f policy s = Except.error e) ∧
    (∀ (f : α → Bool)
      (policy : Surveyor α → List α → Except φ (Surveyor α × List α))
      (s : Surveyor α) (e : φ),
      policy s (s.active.filter (fun p => !f p)) = Except.error e →
      trimE (fun p => Except.ok (f p)) policy s = Except.error e) ∧
    (∀ (tp : α → List α) (es : α → List ε) (f : α → Bool)
      (dn : Surveyor α → Bool) (stop : Nat → Bool) (k : Nat)
      (s : Surveyor α),
      runE (φ := φ) (fun p => Except.ok (tp p)) es
          (fun p => Except.ok (f p))
          (fun s2 l => Except.ok (trim_paths s2 l))
          (fun s2 => Except.ok (dn s2)) stop k s =
        Except.ok (run tp es f dn stop k s)) ∧
    (∀ (tpE : α → Except φ (List α)) (es : α → List ε)
      (fE : α → Except φ Bool)
      (polE : Surveyor α → List α → Except φ (Surveyor α × List α))
      (dnE : Surveyor α → Except φ Bool) (stop : Nat → Bool) (k : Nat)
      (s : Surveyor α) (e : φ),
      dnE s = Except.error e → 1 ≤ k →
      runE tpE es fE polE dnE stop k s = Except.error e) := by
  refine ⟨fun tp es s => ⟨tickE_ok tp es s, ?_⟩,
    fun tp es s l1 p l2 e h1 h2 h3 => tickE_error tp es s l1 p l2 e h1 h2 h3,
    fun f s => trimE_ok f s,
    fun f policy s l1 p l2 e h1 h2 h3 =>
      trimE_filter_error f policy s l1 p l2 e h1 h2 h3,
    fun f policy s e h => trimE_policy_error f policy s e h,
    fun tp es f dn stop k s => runE_ok tp es f dn stop k s,
    fun tpE es fE polE dnE stop k s e h1 h2 =>
      runE_done_error tpE es fE polE dnE stop k s e h1 h2⟩
  rw [tick_eq]

/-- C9 (witness): a done predicate raising fault 99 propagates unmodified
out of run on the scheduler w9S. -/
theorem hooks_fault_witness :
    runE (fun p => Except.ok [p]) (fun (_ : Nat) => ([] : List Nat))
        (fun _ => Except.ok false)
        (fun s2 l => Except.ok (trim_paths s2 l))
        (fun _ => Except.error 99) (fun _ => false) 4 w9S =
      Except.error 99 :=
  hooks_fault_propagation.2.2.2.2.2.2 (fun p => Except.ok [p])
    (fun (_ : Nat) => ([] : List Nat)) (fun _ => Except.ok false)
    (fun s2 l => Except.ok (trim_paths s2 l)) (fun _ => Except.error 99)
    (fun _ => false) 4 w9S 99 rfl (by decide)

end Angr
